import Mathlib

/-!
Verification of the bootstrap orchestration engine of `run.py`
(questdb/play): config patching, retry polling with backoff, port
allocation, process supervision, teardown ordering and log scanning.

Each Python function used by the claims is embedded as an executable
Lean definition, translated line by line from `src/run.py`.
-/

set_option autoImplicit false

namespace Play

/-- Python's `needle in hay` substring test (multi-character needle). -/
def containsSub (hay needle : String) : Bool :=
  (List.range (hay.length + 1)).any
    (fun i => (hay.toList.drop i).take needle.length == needle.toList)

/-- Python's `'=' in line` (single-character membership). -/
def hasEq (line : String) : Bool :=
  line.toList.contains '='

/-- Python's `line.split('=')[0]`: the text before the first `=`
(the whole line when there is no `=`). -/
def keyOf (line : String) : String :=
  String.mk (line.toList.takeWhile (fun c => !(c == '=')))

/-- The keys of an override mapping (`overrides` is a Python dict,
modelled as an ordered association list). -/
def ovKeys (overrides : List (String × String)) : List String :=
  overrides.map Prod.fst

/-- `QuestDB.override_conf` (run.py lines 186-202), content part.
Input: the template `conf_lines` as produced by Python `splitlines()`
(newlines stripped), and the override mapping.  Output: the exact byte
content written to `server.conf`.  Faithful to the source:
for each line, if `'=' in line` and `line.split('=')[0] in overrides`
the code writes `'#' + line` and then — unconditionally, there is no
`else` — writes `line` again; no newline is ever written for template
lines.  Then it writes the banner and one `key=value` line per override. -/
def override_conf (conf_lines : List String) (overrides : List (String × String)) : String :=
  String.join (conf_lines.map (fun line =>
    if hasEq line && (ovKeys overrides).contains (keyOf line) then
      "#" ++ line ++ line
    else
      line))
  ++ "\n# Dynamic ports configuration\n"
  ++ String.join (overrides.map (fun kv => kv.1 ++ "=" ++ kv.2 ++ "\n"))

/-- Filesystem state relevant to `override_conf`: whether the
`data/conf` directory already exists, and the written file content. -/
structure ConfState where
  confDirExists : Bool
  confContent : Option String
deriving DecidableEq

/-- `QuestDB.override_conf` including its filesystem effect:
`conf_path.parent.mkdir(parents=True)` (run.py line 193) raises
`FileExistsError` when `data/conf` already exists (there is no
`exist_ok=True`); otherwise the directory is created and the patched
content is written. -/
def override_conf_run (conf_lines : List String) (overrides : List (String × String))
    (s : ConfState) : Except String ConfState :=
  if s.confDirExists then
    .error "FileExistsError"
  else
    .ok ⟨true, some (override_conf conf_lines overrides)⟩

end Play

/-- C1: evaluation of `override_conf` at the spec's own example.
The template line `http.bind.to=0.0.0.0:9000` with override
`http.bind.to=127.0.0.1:54321` yields a file in which the matched line
is written twice on one physical line — once with a `#` prefix and once
bare, with no separating newline — followed by the override block.
The original line is therefore not preserved as a commented-out line,
contradicting the claim (and the code's own inline comment
`Comment out lines we'll override`). -/
theorem Play.override_conf_failing_eval :
    Play.override_conf ["http.bind.to=0.0.0.0:9000"] [("http.bind.to", "127.0.0.1:54321")] =
      "#http.bind.to=0.0.0.0:9000http.bind.to=0.0.0.0:9000\n# Dynamic ports configuration\nhttp.bind.to=127.0.0.1:54321\n" := by
  decide

/-- C2 counterexample: applying `override_conf` twice with the same
overrides is not equivalent to applying it once — the second
application raises `FileExistsError` at `conf_path.parent.mkdir`,
rather than completing without error. -/
theorem Play.override_conf_twice_raises :
    Except.bind
      (Play.override_conf_run ["http.bind.to=0.0.0.0:9000"]
        [("http.bind.to", "127.0.0.1:54321")] ⟨false, none⟩)
      (Play.override_conf_run ["http.bind.to=0.0.0.0:9000"]
        [("http.bind.to", "127.0.0.1:54321")]) =
    Except.error "FileExistsError" := by
  rfl

/-- C2 amended: a first application in a fresh working area succeeds and
writes the deterministic content `override_conf tmpl ov`, but a second
application on the resulting state raises `FileExistsError` (the conf
directory is recreated without `exist_ok`), so re-application is not
safe. -/
theorem Play.override_conf_second_application_raises
    (tmpl : List String) (ov : List (String × String)) (s : Play.ConfState)
    (h : s.confDirExists = false) :
    ∃ s1, Play.override_conf_run tmpl ov s = .ok s1 ∧
      s1.confContent = some (Play.override_conf tmpl ov) ∧
      Play.override_conf_run tmpl ov s1 = .error "FileExistsError" := by
  refine ⟨⟨true, some (Play.override_conf tmpl ov)⟩, ?_, rfl, rfl⟩
  simp [Play.override_conf_run, h]

/-- Witness for C2's amended theorem at the spec's example inputs. -/
theorem Play.override_conf_second_application_raises_witness :
    (Play.ConfState.mk false none).confDirExists = false ∧
    ∃ s1, Play.override_conf_run ["http.bind.to=0.0.0.0:9000"]
        [("http.bind.to", "127.0.0.1:54321")] ⟨false, none⟩ = .ok s1 ∧
      s1.confContent = some (Play.override_conf ["http.bind.to=0.0.0.0:9000"]
        [("http.bind.to", "127.0.0.1:54321")]) ∧
      Play.override_conf_run ["http.bind.to=0.0.0.0:9000"]
        [("http.bind.to", "127.0.0.1:54321")] s1 = .error "FileExistsError" :=
  ⟨rfl, Play.override_conf_second_application_raises _ _ _ rfl⟩

namespace Play

/-- The backoff update of `ping_retry` (run.py lines 82-83):
after sleeping, `if backoff_till: every = min(backoff_till, every * 1.25)`.
Python float truthiness is modelled as being nonzero. -/
def nextEvery (backoff_till every : ℚ) : ℚ :=
  if backoff_till ≠ 0 then min backoff_till (every * (5 / 4)) else every

/-- The sequence of sleep intervals used by `ping_retry` between failed
attempts: the n-th entry is the duration of the n-th `time.sleep(every)`
in the retry loop, starting from the initial `every` argument. -/
def intervalSeq (backoff_till e0 : ℚ) : ℕ → ℚ
  | 0 => e0
  | n + 1 => nextEvery backoff_till (intervalSeq backoff_till e0 n)

/-- Invariant: with a positive cap and `0 ≤ e0 ≤ cap`, every interval
stays within `[0, cap]`. -/
theorem intervalSeq_bounds (cap e0 : ℚ) (h0 : 0 ≤ e0) (hcap : 0 < cap)
    (hle : e0 ≤ cap) :
    ∀ n, 0 ≤ intervalSeq cap e0 n ∧ intervalSeq cap e0 n ≤ cap := by
  intro n
  induction n with
  | zero => exact ⟨h0, hle⟩
  | succ n ih =>
    obtain ⟨h1, h2⟩ := ih
    simp only [intervalSeq, nextEvery, if_pos (ne_of_gt hcap)]
    refine ⟨le_min (le_of_lt hcap) (mul_nonneg h1 (by norm_num)), min_le_left _ _⟩

end Play

/-- C3 counterexample: with initial interval `every = 10` and cap
`backoff_till = 5`, the first sleep interval exceeds the configured
maximum and the second interval is strictly smaller than the first, so
the intervals are neither bounded by the cap nor non-decreasing. -/
theorem Play.intervalSeq_cap_counterexample :
    ¬ (Play.intervalSeq 5 10 0 ≤ 5) ∧
    ¬ (Play.intervalSeq 5 10 0 ≤ Play.intervalSeq 5 10 1) := by
  constructor <;> norm_num [Play.intervalSeq, Play.nextEvery]

/-- C3 amended: provided the initial interval is nonnegative and at most
the (positive) cap — as with the defaults `every = 0.05`,
`backoff_till = 5.0` used by every call site — successive sleep
intervals are non-decreasing and each is at most the cap. -/
theorem Play.intervalSeq_nondecreasing_le_cap (cap e0 : ℚ) (h0 : 0 ≤ e0)
    (hcap : 0 < cap) (hle : e0 ≤ cap) :
    ∀ n, Play.intervalSeq cap e0 n ≤ Play.intervalSeq cap e0 (n + 1) ∧
      Play.intervalSeq cap e0 n ≤ cap := by
  intro n
  obtain ⟨h1, h2⟩ := Play.intervalSeq_bounds cap e0 h0 hcap hle n
  refine ⟨?_, h2⟩
  show Play.intervalSeq cap e0 n ≤ Play.nextEvery cap (Play.intervalSeq cap e0 n)
  unfold Play.nextEvery
  rw [if_pos (ne_of_gt hcap)]
  exact le_min h2 (le_mul_of_one_le_right h1 (by norm_num))

/-- Witness for C3's amended theorem at the default parameters. -/
theorem Play.intervalSeq_nondecreasing_le_cap_witness :
    (0:ℚ) ≤ 1/20 ∧ (0:ℚ) < 5 ∧ (1/20:ℚ) ≤ 5 ∧
      (Play.intervalSeq 5 (1/20) 0 ≤ Play.intervalSeq 5 (1/20) 1 ∧
       Play.intervalSeq 5 (1/20) 0 ≤ 5) :=
  ⟨by norm_num, by norm_num, by norm_num,
    Play.intervalSeq_nondecreasing_le_cap 5 (1/20) (by norm_num) (by norm_num)
      (by norm_num) 0⟩

namespace Play

/-- Outcome of one invocation of a predicate passed to `ping_retry`:
a truthy return, a falsy return, or a raised exception (carrying its
message), as a Python callable can produce. -/
inductive PredOut
  | truthy
  | falsy
  | raised (e : String)
deriving DecidableEq

/-- How a `ping_retry` run ends: the predicate returned truthy, the
`TimeoutError(msg)` was raised, an exception from the predicate
propagated, or the modelling fuel ran out (never the case for the
actual runs we prove about). -/
inductive RetryOutcome
  | succeeded
  | timedOut (msg : String)
  | errored (e : String)
  | outOfFuel
deriving DecidableEq

/-- Instrumented result of a `ping_retry` run: the outcome, the number
of predicate invocations made, and the final monotonic-clock value
(time advances by the modelled sleeps). -/
structure RetryTrace where
  outcome : RetryOutcome
  attempts : ℕ
  clock : ℚ
deriving DecidableEq

/-- The `while True` loop of `ping_retry` (run.py lines 76-85).
`n` is the index of the next predicate invocation, `t` the current
monotonic time, `ev` the current `every` value; the predicate is a
function of the attempt index.  Each failed attempt sleeps `ev`
(advancing `t`) and updates `ev` by `nextEvery`; the timeout check
`time.monotonic() < threshold` happens only after a falsy attempt.
`fuel` bounds the modelled iterations. -/
def ping_retry_loop (pred : ℕ → PredOut) (threshold backoff_till : ℚ)
    (msg : String) : ℕ → ℚ → ℚ → ℕ → RetryTrace
  | n, t, _, 0 => ⟨.outOfFuel, n, t⟩
  | n, t, ev, fuel + 1 =>
    match pred n with
    | .truthy => ⟨.succeeded, n + 1, t⟩
    | .raised e => ⟨.errored e, n + 1, t⟩
    | .falsy =>
      if t < threshold then
        ping_retry_loop pred threshold backoff_till msg (n + 1) (t + ev)
          (nextEvery backoff_till ev) fuel
      else ⟨.timedOut msg, n + 1, t⟩

/-- `ping_retry` (run.py lines 62-85): records `begin`, computes
`threshold = begin + timeout_sec`, sleeps `lead_sleep` once when it is
truthy (nonzero), then enters the retry loop. -/
def ping_retry (pred : ℕ → PredOut) (t0 timeout_sec every backoff_till lead_sleep : ℚ)
    (msg : String) (fuel : ℕ) : RetryTrace :=
  let threshold := t0 + timeout_sec
  let t1 := if lead_sleep ≠ 0 then t0 + lead_sleep else t0
  ping_retry_loop pred threshold backoff_till msg 0 t1 every fuel

/-- `QuestDB.check_http_up` (run.py lines 239-254): when the child
process has exited (`self.proc.poll() is not None`) it raises
`RuntimeError('QuestDB died during startup. ' + log)`; otherwise a HEAD
request is made and a 200 status is truthy, while any other status,
a socket timeout or a URL error (modelled by `none`) is falsy. -/
def check_http_up (procExited : Bool) (log : String) (httpStatus : Option ℕ) : PredOut :=
  if procExited then
    .raised ("QuestDB died during startup. " ++ log)
  else
    match httpStatus with
    | some s => if s == 200 then .truthy else .falsy
    | none => .falsy

end Play

/-- If the predicate is always falsy and every sleep is at least `m > 0`,
the retry loop reaches the timeout branch within the fuel `k + 1` once
`threshold ≤ t + k * m`: it ends in `timedOut msg` with final clock at
or past the threshold. -/
theorem Play.ping_retry_loop_reaches_timeout (pred : ℕ → Play.PredOut)
    (hpred : ∀ n, pred n = .falsy) (threshold cap : ℚ) (msg : String)
    (m : ℚ) (hm : 0 < m) (hcap : cap = 0 ∨ m ≤ cap) :
    ∀ (k n : ℕ) (t ev : ℚ), m ≤ ev → threshold ≤ t + (k : ℚ) * m →
      ∃ fuel a tEnd, Play.ping_retry_loop pred threshold cap msg n t ev fuel =
        ⟨.timedOut msg, a, tEnd⟩ ∧ threshold ≤ tEnd := by
  intro k
  induction k with
  | zero =>
    intro n t ev _ hth
    have hth' : threshold ≤ t := by simpa using hth
    have ht : ¬ t < threshold := not_lt.mpr hth'
    exact ⟨1, n + 1, t, by simp [Play.ping_retry_loop, hpred n, ht], hth'⟩
  | succ k ih =>
    intro n t ev hev hth
    by_cases ht : t < threshold
    · have hev0 : 0 ≤ ev := le_trans hm.le hev
      have hev' : m ≤ Play.nextEvery cap ev := by
        rcases hcap with h0 | hle
        · simpa [Play.nextEvery, h0] using hev
        · have hcap0 : cap ≠ 0 := by
            have : 0 < cap := lt_of_lt_of_le hm hle
            exact ne_of_gt this
          rw [Play.nextEvery, if_pos hcap0]
          exact le_min hle
            (le_trans hev (le_mul_of_one_le_right hev0 (by norm_num)))
      have hth' : threshold ≤ (t + ev) + (k : ℚ) * m := by
        push_cast at hth
        linarith
      obtain ⟨fuel, a, tEnd, hrun, hend⟩ :=
        ih (n + 1) (t + ev) (Play.nextEvery cap ev) hev' hth'
      exact ⟨fuel + 1, a, tEnd,
        by simp [Play.ping_retry_loop, hpred n, ht, hrun], hend⟩
    · exact ⟨1, n + 1, t, by simp [Play.ping_retry_loop, hpred n, ht],
        not_lt.mp ht⟩

/-- C4: for a predicate that never returns a truthy result (and with a
positive retry interval and nonnegative cap, as in every call site's
defaults), `ping_retry` never loops indefinitely: it reaches, after
finitely many iterations, the `TimeoutError(msg)` branch carrying the
caller-supplied message, and it does so only once the monotonic clock
has passed `begin + timeout_sec`. -/
theorem Play.ping_retry_never_truthy_times_out (pred : ℕ → Play.PredOut)
    (t0 timeout_sec every cap lead : ℚ) (msg : String)
    (hpred : ∀ n, pred n = .falsy) (hev : 0 < every) (hcap : 0 ≤ cap) :
    ∃ fuel a tEnd,
      Play.ping_retry pred t0 timeout_sec every cap lead msg fuel =
        ⟨.timedOut msg, a, tEnd⟩ ∧ t0 + timeout_sec ≤ tEnd := by
  have hm : 0 < (if cap = 0 then every else min every cap) := by
    by_cases h0 : cap = 0
    · simpa [h0] using hev
    · have hc : 0 < cap := lt_of_le_of_ne hcap (Ne.symm h0)
      rw [if_neg h0]
      exact lt_min hev hc
  have hcap2 : cap = 0 ∨ (if cap = 0 then every else min every cap) ≤ cap := by
    by_cases h0 : cap = 0
    · exact .inl h0
    · exact .inr (by rw [if_neg h0]; exact min_le_right _ _)
  have hme : (if cap = 0 then every else min every cap) ≤ every := by
    by_cases h0 : cap = 0
    · simp [h0]
    · rw [if_neg h0]; exact min_le_left _ _
  obtain ⟨k, hk⟩ := exists_nat_ge
    ((t0 + timeout_sec - (if lead ≠ 0 then t0 + lead else t0)) /
      (if cap = 0 then every else min every cap))
  have hth : t0 + timeout_sec ≤ (if lead ≠ 0 then t0 + lead else t0) +
      (k : ℚ) * (if cap = 0 then every else min every cap) := by
    have := (div_le_iff₀ hm).mp hk
    linarith
  obtain ⟨fuel, a, tEnd, hrun, hend⟩ :=
    Play.ping_retry_loop_reaches_timeout pred hpred (t0 + timeout_sec) cap msg
      (if cap = 0 then every else min every cap) hm hcap2 k 0
      (if lead ≠ 0 then t0 + lead else t0) every hme hth
  exact ⟨fuel, a, tEnd, by simpa [Play.ping_retry] using hrun, hend⟩

/-- Witness for C4 at the defaults of run.py's QuestDB readiness wait:
`timeout_sec = 60`, `every = 0.05`, `backoff_till = 5`, `lead = 0.1`. -/
theorem Play.ping_retry_never_truthy_times_out_witness :
    (∀ n : ℕ, (fun _ : ℕ => Play.PredOut.falsy) n = .falsy) ∧
    (0:ℚ) < 1/20 ∧ (0:ℚ) ≤ 5 ∧
    ∃ fuel a tEnd,
      Play.ping_retry (fun _ => Play.PredOut.falsy) 0 60 (1/20) 5 (1/10)
        "Timed out waiting for HTTP service to come up." fuel =
        ⟨.timedOut "Timed out waiting for HTTP service to come up.", a, tEnd⟩ ∧
      (0:ℚ) + 60 ≤ tEnd :=
  ⟨fun _ => rfl, by norm_num, by norm_num,
    Play.ping_retry_never_truthy_times_out (fun _ => Play.PredOut.falsy)
      0 60 (1/20) 5 (1/10) "Timed out waiting for HTTP service to come up."
      (fun _ => rfl) (by norm_num) (by norm_num)⟩

/-- Shifting the backoff state: the intervals seen from the updated
`every` are the original interval sequence advanced by one step. -/
theorem Play.intervalSeq_shift (cap e0 : ℚ) :
    ∀ n, Play.intervalSeq cap (Play.nextEvery cap e0) n =
      Play.intervalSeq cap e0 (n + 1) := by
  intro n
  induction n with
  | zero => rfl
  | succ n ih =>
    show Play.nextEvery cap (Play.intervalSeq cap (Play.nextEvery cap e0) n) = _
    rw [ih]
    rfl

/-- A raise at attempt index `k` of the retry loop, after `k` falsy
attempts all of which pass the threshold check, ends the loop in
`errored e` with exactly `k + 1` invocations and a final clock equal to
the entry clock plus the `k` sleeps taken so far. -/
theorem Play.ping_retry_loop_fatal (pred : ℕ → Play.PredOut) (threshold cap : ℚ)
    (msg e : String) :
    ∀ (k n : ℕ) (t ev : ℚ) (fuel : ℕ),
      (∀ i, i < k → pred (n + i) = .falsy) →
      pred (n + k) = .raised e →
      (∀ j, j < k →
        t + ∑ i ∈ Finset.range j, Play.intervalSeq cap ev i < threshold) →
      k + 1 ≤ fuel →
      Play.ping_retry_loop pred threshold cap msg n t ev fuel =
        ⟨.errored e, n + k + 1,
          t + ∑ i ∈ Finset.range k, Play.intervalSeq cap ev i⟩ := by
  intro k
  induction k with
  | zero =>
    intro n t ev fuel _ hraise _ hfuel
    obtain ⟨f, rfl⟩ : ∃ f, fuel = f + 1 := ⟨fuel - 1, by omega⟩
    simp only [Nat.add_zero] at hraise
    simp [Play.ping_retry_loop, hraise]
  | succ k ih =>
    intro n t ev fuel hfalsy hraise hreach hfuel
    obtain ⟨f, rfl⟩ : ∃ f, fuel = f + 1 := ⟨fuel - 1, by omega⟩
    have h0 : pred n = .falsy := by simpa using hfalsy 0 (Nat.succ_pos k)
    have ht : t < threshold := by simpa using hreach 0 (Nat.succ_pos k)
    have hev0 : Play.intervalSeq cap ev 0 = ev := rfl
    have hrec := ih (n + 1) (t + ev) (Play.nextEvery cap ev) f
      (fun i hi => by
        have h := hfalsy (i + 1) (by omega)
        have harg : n + (i + 1) = n + 1 + i := by omega
        rwa [harg] at h)
      (by
        have h := hraise
        have harg : n + (k + 1) = n + 1 + k := by omega
        rwa [harg] at h)
      (fun j hj => by
        have h := hreach (j + 1) (by omega)
        rw [Finset.sum_range_succ'] at h
        simp only [← Play.intervalSeq_shift, hev0] at h
        linarith)
      (by omega)
    have hstep : Play.ping_retry_loop pred threshold cap msg n t ev (f + 1) =
        Play.ping_retry_loop pred threshold cap msg (n + 1) (t + ev)
          (Play.nextEvery cap ev) f := by
      simp [Play.ping_retry_loop, h0, ht]
    rw [hstep, hrec]
    have hattempts : n + 1 + k + 1 = n + (k + 1) + 1 := by omega
    have hsum : t + ev + ∑ i ∈ Finset.range k,
        Play.intervalSeq cap (Play.nextEvery cap ev) i =
        t + ∑ i ∈ Finset.range (k + 1), Play.intervalSeq cap ev i := by
      rw [Finset.sum_range_succ']
      simp only [Play.intervalSeq_shift, hev0]
      ring
    rw [hattempts, hsum]

/-- C5: a predicate that raises a fatal error at any attempt index `k` —
such as `check_http_up` once the child process has exited — after `k`
falsy attempts that stayed within the timeout threshold, makes
`ping_retry` abort by propagating that error at that very attempt:
the raising invocation is never retried (exactly `k + 1` invocations
happen), and the final clock is the lead sleep plus only the `k` sleeps
already taken — the remaining timeout budget is not consumed, whatever
`timeout_sec` is. -/
theorem Play.ping_retry_fatal_aborts_without_retry (pred : ℕ → Play.PredOut)
    (e : String) (k : ℕ) (t0 timeout_sec every cap lead : ℚ) (msg : String)
    (fuel : ℕ)
    (hfalsy : ∀ i, i < k → pred i = .falsy)
    (hraise : pred k = .raised e)
    (hreach : ∀ j, j < k →
      (if lead ≠ 0 then t0 + lead else t0) +
        ∑ i ∈ Finset.range j, Play.intervalSeq cap every i < t0 + timeout_sec)
    (hfuel : k + 1 ≤ fuel) :
    Play.ping_retry pred t0 timeout_sec every cap lead msg fuel =
      ⟨.errored e, k + 1,
        (if lead ≠ 0 then t0 + lead else t0) +
          ∑ i ∈ Finset.range k, Play.intervalSeq cap every i⟩ := by
  have h := Play.ping_retry_loop_fatal pred (t0 + timeout_sec) cap msg e k 0
    (if lead ≠ 0 then t0 + lead else t0) every fuel
    (fun i hi => by simpa using hfalsy i hi)
    (by simpa using hraise)
    hreach hfuel
  simpa [Play.ping_retry] using h

/-- Witness for C5: a QuestDB process that died during startup is seen at
the third probe (attempt index 2) of the 60-second readiness wait; the
wait aborts right there with the RuntimeError message after exactly three
invocations, the clock having advanced only by the lead sleep and the
two sleeps taken. -/
theorem Play.ping_retry_fatal_aborts_without_retry_witness :
    (∀ i, i < 2 → (fun i => if i < 2 then Play.PredOut.falsy
        else Play.check_http_up true "tail" none) i = .falsy) ∧
    (fun i => if i < 2 then Play.PredOut.falsy
        else Play.check_http_up true "tail" none) 2 =
      .raised "QuestDB died during startup. tail" ∧
    (∀ j, j < 2 → (if (1/10 : ℚ) ≠ 0 then 0 + 1/10 else 0) +
      ∑ i ∈ Finset.range j, Play.intervalSeq 5 (1/20) i < (0 : ℚ) + 60) ∧
    2 + 1 ≤ 3 ∧
    Play.ping_retry (fun i => if i < 2 then Play.PredOut.falsy
        else Play.check_http_up true "tail" none) 0 60 (1/20) 5 (1/10)
      "Timed out waiting for HTTP service to come up." 3 =
      ⟨.errored "QuestDB died during startup. tail", 2 + 1,
        (if (1/10 : ℚ) ≠ 0 then 0 + 1/10 else 0) +
          ∑ i ∈ Finset.range 2, Play.intervalSeq 5 (1/20) i⟩ := by
  have hreach : ∀ j, j < 2 → (if (1/10 : ℚ) ≠ 0 then 0 + 1/10 else 0) +
      ∑ i ∈ Finset.range j, Play.intervalSeq 5 (1/20) i < (0 : ℚ) + 60 := by
    intro j hj
    interval_cases j <;>
      norm_num [Finset.sum_range_succ, Play.intervalSeq, Play.nextEvery]
  exact ⟨by decide, rfl, hreach, by norm_num,
    Play.ping_retry_fatal_aborts_without_retry
      (fun i => if i < 2 then Play.PredOut.falsy
        else Play.check_http_up true "tail" none)
      "QuestDB died during startup. tail" 2 0 60 (1/20) 5 (1/10)
      "Timed out waiting for HTTP service to come up." 3
      (by decide) rfl hreach (by norm_num)⟩

/-- If the retry loop ends in `timedOut`, then the predicate was
invoked and returned falsy at the loop's first attempt index, and the
total number of invocations exceeds that index. -/
theorem Play.ping_retry_loop_timeout_attempts (pred : ℕ → Play.PredOut)
    (threshold cap : ℚ) (msg : String) :
    ∀ (fuel n : ℕ) (t ev : ℚ) (m : String),
      (Play.ping_retry_loop pred threshold cap msg n t ev fuel).outcome =
        .timedOut m →
      pred n = .falsy ∧
        n + 1 ≤ (Play.ping_retry_loop pred threshold cap msg n t ev fuel).attempts := by
  intro fuel
  induction fuel with
  | zero =>
    intro n t ev m h
    simp [Play.ping_retry_loop] at h
  | succ fuel ih =>
    intro n t ev m h
    cases hp : pred n with
    | truthy => simp [Play.ping_retry_loop, hp] at h
    | raised e => simp [Play.ping_retry_loop, hp] at h
    | falsy =>
      by_cases ht : t < threshold
      · have hrec := ih (n + 1) (t + ev) (Play.nextEvery cap ev) m
          (by simpa [Play.ping_retry_loop, hp, ht] using h)
        refine ⟨rfl, ?_⟩
        have : Play.ping_retry_loop pred threshold cap msg n t ev (fuel + 1) =
            Play.ping_retry_loop pred threshold cap msg (n + 1) (t + ev)
              (Play.nextEvery cap ev) fuel := by
          simp [Play.ping_retry_loop, hp, ht]
        rw [this]
        omega
      · refine ⟨rfl, ?_⟩
        have : Play.ping_retry_loop pred threshold cap msg n t ev (fuel + 1) =
            ⟨.timedOut msg, n + 1, t⟩ := by
          simp [Play.ping_retry_loop, hp, ht]
        rw [this]

/-- C10: a `TimeoutError` from `ping_retry` implies the predicate was
invoked at least once and its first invocation returned falsy: after
the lead sleep, the timeout threshold is only consulted after a failed
attempt, so even a zero or already-exhausted budget cannot time out
without one failed predicate call. -/
theorem Play.ping_retry_timeout_implies_failed_attempt (pred : ℕ → Play.PredOut)
    (t0 timeout_sec every cap lead : ℚ) (msg m : String) (fuel : ℕ)
    (h : (Play.ping_retry pred t0 timeout_sec every cap lead msg fuel).outcome =
      .timedOut m) :
    pred 0 = .falsy ∧
      1 ≤ (Play.ping_retry pred t0 timeout_sec every cap lead msg fuel).attempts := by
  have := Play.ping_retry_loop_timeout_attempts pred (t0 + timeout_sec) cap msg
    fuel 0 (if lead ≠ 0 then t0 + lead else t0) every m
    (by simpa [Play.ping_retry] using h)
  simpa [Play.ping_retry] using this

/-- Witness for C10: with a zero budget and no lead sleep, the run times
out — and did invoke the (falsy) predicate once. -/
theorem Play.ping_retry_timeout_implies_failed_attempt_witness :
    (Play.ping_retry (fun _ => Play.PredOut.falsy) 0 0 (1/20) 5 0
      "Timed out retrying" 1).outcome = .timedOut "Timed out retrying" ∧
    ((fun _ : ℕ => Play.PredOut.falsy) 0 = .falsy ∧
      1 ≤ (Play.ping_retry (fun _ => Play.PredOut.falsy) 0 0 (1/20) 5 0
        "Timed out retrying" 1).attempts) := by
  have h : (Play.ping_retry (fun _ => Play.PredOut.falsy) 0 0 (1/20) 5 0
      "Timed out retrying" 1).outcome = .timedOut "Timed out retrying" := by
    simp [Play.ping_retry, Play.ping_retry_loop]
  exact ⟨h, Play.ping_retry_timeout_implies_failed_attempt
    (fun _ => Play.PredOut.falsy) 0 0 (1/20) 5 0
    "Timed out retrying" "Timed out retrying" 1 h⟩

namespace Play

/-- `avail_port` (run.py lines 53-59) against an OS model.  The OS is an
oracle `pick` choosing an ephemeral port given the call index and the
set of currently bound ports; `bound` is that set.  The function binds a
socket to port 0 (the OS picks a port, which becomes bound), reads the
port back, and closes the socket in the `finally` block (the port is
released before the function returns). -/
def avail_port (pick : ℕ → List ℕ → ℕ) (i : ℕ) (bound : List ℕ) : ℕ × List ℕ :=
  let p := pick i bound
  let afterBind := p :: bound
  let result := p
  let afterClose := afterBind.erase p
  (result, afterClose)

/-- K sequential calls of `avail_port` starting from `bound`, returning
the list of allocated ports (call indices `i, i+1, …`). -/
def avail_ports (pick : ℕ → List ℕ → ℕ) : ℕ → ℕ → List ℕ → List ℕ
  | _, 0, _ => []
  | i, k + 1, bound =>
    let r := avail_port pick i bound
    r.1 :: avail_ports pick (i + 1) k r.2

end Play

/-- C6 counterexample: an OS that always hands out port 5000 — legal,
since `avail_port` closes its socket before returning, so port 5000 is
unbound again at every call — makes two sequential `avail_port` calls
return the same port.  The code itself enforces no cross-call
distinctness. -/
theorem Play.avail_port_duplicate_counterexample :
    (∀ j : ℕ, (fun _ (_ : List ℕ) => 5000) j ([] : List ℕ) ∉ ([] : List ℕ)) ∧
    Play.avail_ports (fun _ _ => 5000) 0 2 [] = [5000, 5000] ∧
    ¬ (Play.avail_ports (fun _ _ => 5000) 0 2 []).Nodup := by
  refine ⟨fun j => List.not_mem_nil _, by decide, by decide⟩

/-- C6 amended: each call binds a port the OS reports as free and fully
releases it before returning, so after every call the bound set is back
to the initial one and the K results are exactly the OS oracle's K
successive choices — pairwise distinct exactly when the OS's choices
are, which the code does not enforce. -/
theorem Play.avail_ports_eq_oracle_choices (pick : ℕ → List ℕ → ℕ) :
    ∀ (k i : ℕ) (bound : List ℕ),
      (∀ j, pick j bound ∉ bound) →
      Play.avail_ports pick i k bound =
        (List.range k).map (fun j => pick (i + j) bound) := by
  intro k
  induction k with
  | zero => intro i bound _; simp [Play.avail_ports]
  | succ k ih =>
    intro i bound hpick
    have hstate : (Play.avail_port pick i bound).2 = bound := by
      simp [Play.avail_port, List.erase_cons_head]
    have hval : (Play.avail_port pick i bound).1 = pick i bound := rfl
    rw [Play.avail_ports, hstate, hval, ih (i + 1) bound hpick]
    rw [List.range_succ_eq_map]
    simp only [List.map_cons, List.map_map, Function.comp]
    rw [Nat.add_zero]
    refine congrArg (fun l => pick i bound :: l) ?_
    apply List.map_congr_left
    intro a _
    simp only [Function.comp_apply, Nat.succ_eq_add_one]
    congr 1
    omega

/-- Witness for C6's amended theorem: three calls under an OS oracle
returning `6000 + call index` yield exactly the oracle's choices. -/
theorem Play.avail_ports_eq_oracle_choices_witness :
    (∀ j : ℕ, (fun j (_ : List ℕ) => 6000 + j) j ([] : List ℕ) ∉ ([] : List ℕ)) ∧
    Play.avail_ports (fun j _ => 6000 + j) 0 3 [] =
      (List.range 3).map (fun j => (fun j (_ : List ℕ) => 6000 + j) (0 + j) ([] : List ℕ)) :=
  ⟨fun j => List.not_mem_nil _,
    Play.avail_ports_eq_oracle_choices (fun j _ => 6000 + j) 3 0 []
      (fun j => List.not_mem_nil _)⟩

namespace Play

/-- A process supervisor's handle state, as in `QuestDB.__init__`
(run.py lines 147-148) and `JupyterLab.__init__` (lines 278-279):
`self.proc` and `self.log_file`, both `None` until started. -/
structure Supervisor where
  proc : Option ℕ
  log_file : Option ℕ
deriving DecidableEq

/-- The state after `__init__`: no process handle, no log file handle. -/
def Supervisor.init : Supervisor := ⟨none, none⟩

/-- `run()` (run.py lines 221-228 / 310-329): opens the log file and
spawns the child process, storing both handles. -/
def Supervisor.start (pid lf : ℕ) (_ : Supervisor) : Supervisor :=
  ⟨some pid, some lf⟩

/-- `stop()` (run.py lines 256-264 and, textually identical, 354-362):
`if self.proc is None: return` — otherwise terminate the process, wait,
close the log file and clear both handles.  `self.log_file.close()`
would raise `AttributeError` were the log handle absent while a process
handle exists (never the case along the code's own paths). -/
def Supervisor.stop (s : Supervisor) : Except String Supervisor :=
  match s.proc with
  | none => .ok s
  | some _ =>
    match s.log_file with
    | none => .error "AttributeError"
    | some _ => .ok ⟨none, none⟩

end Play

/-- C7: `stop()` before any start is a no-op completing without error
and leaving no process or log handle; and after a real start, `stop()`
succeeds clearing both handles, and a second `stop()` is again an
error-free no-op.  This covers both `QuestDB.stop` and `JupyterLab.stop`
(their bodies are textually identical). -/
theorem Play.supervisor_stop_idempotent :
    (Play.Supervisor.stop Play.Supervisor.init = .ok Play.Supervisor.init ∧
      Play.Supervisor.init.proc = none ∧ Play.Supervisor.init.log_file = none) ∧
    ∀ pid lf : ℕ, ∃ s1,
      Play.Supervisor.stop (Play.Supervisor.start pid lf Play.Supervisor.init) = .ok s1 ∧
      s1.proc = none ∧ s1.log_file = none ∧
      Play.Supervisor.stop s1 = .ok s1 := by
  refine ⟨⟨rfl, rfl, rfl⟩, fun pid lf => ⟨⟨none, none⟩, rfl, rfl, rfl, rfl⟩⟩

/-- Witness for C7 at concrete handles. -/
theorem Play.supervisor_stop_idempotent_witness :
    (Play.Supervisor.stop Play.Supervisor.init = .ok Play.Supervisor.init ∧
      Play.Supervisor.init.proc = none ∧ Play.Supervisor.init.log_file = none) ∧
    ∃ s1,
      Play.Supervisor.stop (Play.Supervisor.start 4242 7 Play.Supervisor.init) = .ok s1 ∧
      s1.proc = none ∧ s1.log_file = none ∧
      Play.Supervisor.stop s1 = .ok s1 :=
  ⟨Play.supervisor_stop_idempotent.1, Play.supervisor_stop_idempotent.2 4242 7⟩

namespace Play

/-- The two supervised services of `main` (run.py lines 430-458). -/
inductive Svc
  | questdb
  | jupyterlab
deriving DecidableEq

/-- Start order in `main`: `lab.run()` (line 445) precedes
`questdb.run()` (line 446). -/
def startOrder : List Svc := [.jupyterlab, .questdb]

/-- The stop calls on the normal-exit teardown path of `main`, after
`wait_prompt()` returns: `lab.stop()` (line 457) then `questdb.stop()`
(line 458). -/
def normalExitStopOrder : List Svc := [.jupyterlab, .questdb]

/-- The order of `atexit.register(self.stop)` calls: each happens inside
the service's own `run()` (lines 330 and 230), hence in start order. -/
def atexitRegistrationOrder : List Svc := startOrder

/-- Python's `atexit` runs registered callbacks in last-in-first-out
order, so the cleanup-hook-driven stop calls are the reverse of the
registration order. -/
def atexitStopOrder : List Svc := atexitRegistrationOrder.reverse

end Play

/-- C8 counterexample: on the normal-exit teardown path the stop calls
are not the reverse of the start order — `main` stops JupyterLab first
and QuestDB second, exactly the order in which they were started. -/
theorem Play.normal_teardown_not_reverse :
    Play.normalExitStopOrder ≠ Play.startOrder.reverse := by decide

/-- C8 amended: the normal-exit path stops services in the same order
they were started (JupyterLab then QuestDB — so the data service is
still stopped only after the notebook service that references it),
while the atexit cleanup hooks, running last-registered-first, stop
them in reverse start order. -/
theorem Play.teardown_orders :
    Play.normalExitStopOrder = Play.startOrder ∧
    Play.atexitStopOrder = Play.startOrder.reverse := by decide

namespace Play

/-- The marker `scan_log_for_url` searches for (run.py line 337):
`http://{host}:{port}/lab?token=`. -/
def urlTarget (host : String) (port : ℕ) : String :=
  "http://" ++ host ++ ":" ++ toString port ++ "/lab?token="

/-- Python's `target_log in line` for one log line. -/
def lineMatches (host : String) (port : ℕ) (line : String) : Bool :=
  containsSub line (urlTarget host port)

/-- `JupyterLab.scan_log_for_url` (run.py lines 333-344), result part:
the log file is re-opened and iterated from its beginning; at the first
matching line the stripped line, with the search host replaced by
`localhost`, becomes the URL (truthy); with no match the scan is falsy.
The object retains no read offset: the result is a function of the full
current log content alone. -/
def scan_log_for_url (host : String) (port : ℕ) (logLines : List String) : Option String :=
  match logLines.find? (fun line => lineMatches host port line) with
  | some line => some ((line.trim).replace host "localhost")
  | none => none

/-- The log lines one poll of `scan_log_for_url` actually reads: the
`for line in log_file` loop starts at the beginning of the file and
stops only at the first match (reading every line when none matches). -/
def scanReadLines (host : String) (port : ℕ) (logLines : List String) : List String :=
  logLines.takeWhile (fun line => !(lineMatches host port line)) ++
    (logLines.dropWhile (fun line => !(lineMatches host port line))).take 1

end Play

/-- C9 counterexample: a first poll saw the (non-matching) line `boot`;
after `ready` is appended, the second poll reads both lines again — not
only the newly appended one, as the claim's incremental-scan-state
property would require. -/
theorem Play.scan_not_incremental_counterexample :
    (∀ line ∈ ["boot"], Play.lineMatches "localhost" 8888 line = false) ∧
    Play.scanReadLines "localhost" 8888 (["boot"] ++ ["ready"]) ≠ ["ready"] := by
  decide

/-- C9 amended: `scan_log_for_url` keeps no scan state between polls:
each poll re-reads the log from the beginning, so when the previously
seen lines `L1` contain no match, a poll of the grown log `L1 ++ L2`
reads all of `L1` again, followed by its read of the new lines `L2`. -/
theorem Play.scan_rereads_from_start (host : String) (port : ℕ)
    (L1 L2 : List String)
    (h : ∀ line ∈ L1, Play.lineMatches host port line = false) :
    Play.scanReadLines host port (L1 ++ L2) =
      L1 ++ Play.scanReadLines host port L2 := by
  revert h
  induction L1 with
  | nil => intro _; simp
  | cons a l ih =>
    intro h
    have ha : Play.lineMatches host port a = false := h a (List.mem_cons_self a l)
    have hl : ∀ line ∈ l, Play.lineMatches host port line = false :=
      fun x hx => h x (List.mem_cons_of_mem a hx)
    have hrec := ih hl
    simp only [Play.scanReadLines, List.cons_append, List.takeWhile_cons,
      List.dropWhile_cons, ha] at hrec ⊢
    simp only [Bool.not_false, if_true, List.cons_append]
    rw [hrec]

/-- Witness for C9's amended theorem at the counterexample's log. -/
theorem Play.scan_rereads_from_start_witness :
    (∀ line ∈ ["boot"], Play.lineMatches "localhost" 8888 line = false) ∧
    Play.scanReadLines "localhost" 8888 (["boot"] ++ ["ready"]) =
      ["boot"] ++ Play.scanReadLines "localhost" 8888 ["ready"] :=
  ⟨by decide, Play.scan_rereads_from_start "localhost" 8888 ["boot"] ["ready"]
    (by decide)⟩
